import Mathlib

/-!
Shallow embedding of `src/options.py` (Finance News + Fundamentals + Sentiment
dashboard).  External collaborators (the TextBlob sentiment model, the
feedparser feed, the yfinance provider, matplotlib rendering) are modelled as
explicit function parameters; Python floats are modelled as rationals, Python
datetimes as integer timestamps (seconds), raised exceptions as `Except.error`,
and `None` as `Option.none`.
-/

set_option autoImplicit false

namespace Options

/-- A value delivered by an external provider (feedparser / yfinance fields
mix strings and numbers; the claims only depend on presence and identity). -/
inductive YVal where
  | str : String → YVal
  | num : Int → YVal
  deriving DecidableEq, Repr

/-- One feed entry as seen by `fetch_google_news`: `e.get("title")`,
`e.get("link")` and `e.get("summary", "")` may each be absent (`None`), and
`e.published_parsed` is modelled as an optional UTC timestamp in seconds
(absent when the attribute is missing or falsy, i.e. not parseable). -/
structure Entry where
  title : Option String
  link : Option String
  summary : Option String
  published_parsed : Option Int
  deriving DecidableEq, Repr

/-- The article dict built by `fetch_google_news`: all four keys are always
inserted; `title`/`link` hold whatever `e.get` returned (possibly `None`). -/
structure Article where
  title : Option String
  link : Option String
  summary : String
  published : String
  deriving DecidableEq, Repr

/-- The article record appended for entry `e` with parsed publish time `pub`
(`options.py` lines 53-58): `published` is `pub.strftime("%b %d, %Y")` when
`pub` is set and `""` otherwise; `strftime` stands for the library formatter. -/
def article_of (strftime : Int → String) (e : Entry) (pub : Option Int) : Article :=
  { title := e.title
    link := e.link
    summary := e.summary.getD ""
    published := match pub with
      | some t => strftime t
      | none => "" }

/-- Whether `fetch_google_news` keeps entry `e` relative to `cutoff`
(`if pub and pub < cutoff: continue`, lines 48-52): dropped exactly when a
parsed publish time exists and is strictly before the cutoff. -/
def keep_entry (cutoff : Int) (e : Entry) : Bool :=
  match e.published_parsed with
  | some t => decide (cutoff ≤ t)
  | none => true

/-- The accumulation loop of `fetch_google_news` (lines 47-60): skip old
entries, append the article record, and break once `max_items` articles have
been collected (the length test runs after the append). -/
def fetch_loop (strftime : Int → String) (cutoff : Int) (max_items : Nat) :
    List Entry → List Article → List Article
  | [], articles => articles
  | e :: es, articles =>
    match e.published_parsed with
    | some t =>
      if t < cutoff then
        fetch_loop strftime cutoff max_items es articles
      else
        let articles2 := articles ++ [article_of strftime e (some t)]
        if max_items ≤ articles2.length then articles2
        else fetch_loop strftime cutoff max_items es articles2
    | none =>
      let articles2 := articles ++ [article_of strftime e none]
      if max_items ≤ articles2.length then articles2
      else fetch_loop strftime cutoff max_items es articles2

/-- `fetch_google_news` (lines 41-61).  The URL construction and the network
call are external; the parsed feed is passed in as `entries`.  `cutoff` is
`datetime.utcnow() - timedelta(days=days)`, with `now` in seconds. -/
def fetch_google_news (strftime : Int → String) (entries : List Entry)
    (now : Int) (days : Int) (max_items : Nat) : List Article :=
  fetch_loop strftime (now - days * 86400) max_items entries []

/-- `analyze_sentiment` (lines 64-73).  The TextBlob polarity model is the
external parameter `polarity_of`; thresholds are the literals `0.1`/`-0.1`. -/
def analyze_sentiment (polarity_of : String → ℚ) (text : String) :
    String × String × ℚ :=
  let polarity := polarity_of text
  if polarity > 1/10 then ("Positive", "pos", polarity)
  else if polarity < -(1/10) then ("Negative", "neg", polarity)
  else ("Neutral", "neu", polarity)

/-- Uppercase ASCII letter, the character class `[A-Z]` of the ticker regex. -/
def isUpperAscii (c : Char) : Bool :=
  decide ('A' ≤ c) && decide (c ≤ 'Z')

/-- Word character for the regex word boundary `\b` (ASCII scope):
letters, digits and underscore. -/
def isWordChar (c : Char) : Bool :=
  c.isAlphanum || decide (c = '_')

/-- Splits a character list into its maximal runs of word characters,
left to right; `acc` holds the current run reversed. -/
def word_runs_aux (acc : List Char) : List Char → List (List Char)
  | [] => if acc.isEmpty then [] else [acc.reverse]
  | c :: cs =>
    if isWordChar c then
      word_runs_aux (c :: acc) cs
    else if acc.isEmpty then
      word_runs_aux [] cs
    else
      acc.reverse :: word_runs_aux [] cs

/-- Maximal word-character runs of a string. -/
def word_runs (s : String) : List (List Char) :=
  word_runs_aux [] s.toList

/-- `re.findall(r'\b[A-Z]\x7b2,6\x7d\b', title)` (line 78): the matches are
exactly the maximal word-character runs consisting solely of uppercase ASCII
letters with length between 2 and 6, in order, duplicates kept. -/
def ticker_tokens (title : String) : List String :=
  ((word_runs title).filter fun r =>
      r.all isUpperAscii && decide (2 ≤ r.length) && decide (r.length ≤ 6)).map
    fun r => String.mk r

/-- `detect_ticker` (lines 76-82): for each matched token append the bare
token and then the token suffixed with `".NS"`. -/
def detect_ticker (title : String) : List String :=
  (ticker_tokens title).foldl (fun tickers t => tickers ++ [t, t ++ ".NS"]) []

/-- The `tk.info` dict returned by the yfinance provider, restricted to the
ten fields read by `get_fundamentals`.  Each field is either absent from the
dict (outer `none`) or present holding a possibly-null value (inner
`Option`): `dict.get` distinguishes the two, returning the supplied default
only for an absent key and returning `None` for a present-but-null one. -/
structure Info where
  longName : Option (Option YVal)
  sector : Option (Option YVal)
  industry : Option (Option YVal)
  marketCap : Option (Option YVal)
  currentPrice : Option (Option YVal)
  trailingPE : Option (Option YVal)
  priceToBook : Option (Option YVal)
  dividendYield : Option (Option YVal)
  fiftyTwoWeekHigh : Option (Option YVal)
  fiftyTwoWeekLow : Option (Option YVal)
  deriving DecidableEq, Repr

/-- The fixed ten display names of the fundamentals snapshot. -/
def fundKeys : List String :=
  ["Company", "Sector", "Industry", "Market Cap", "Current Price",
   "PE Ratio", "PB Ratio", "Dividend Yield", "52W High", "52W Low"]

/-- The provider value backing a display key of the snapshot, as defaultless
`info.get(key)` would deliver it: `none` when the provider field is absent or
present-but-null. -/
def providerValue (info : Info) : String → Option YVal
  | "Company" => info.longName.getD none
  | "Sector" => info.sector.getD none
  | "Industry" => info.industry.getD none
  | "Market Cap" => info.marketCap.getD none
  | "Current Price" => info.currentPrice.getD none
  | "PE Ratio" => info.trailingPE.getD none
  | "PB Ratio" => info.priceToBook.getD none
  | "Dividend Yield" => info.dividendYield.getD none
  | "52W High" => info.fiftyTwoWeekHigh.getD none
  | "52W Low" => info.fiftyTwoWeekLow.getD none
  | _ => none

/-- `get_fundamentals` (lines 84-102).  `fetchInfo` stands for
`yf.Ticker(ticker).info`; an `Except.error` is a raised exception, caught by
the `except` clause which returns `None`.  The snapshot is the insertion-order
dict comprehension dropping `None` values.  `info.get("longName", ticker)`
yields the stored value when the key is present — even when that value is
null, in which case the comprehension drops Company — and the queried ticker
string only when the key is absent; the other nine `info.get(key)` calls
yield the stored value or `None`. -/
def get_fundamentals (fetchInfo : String → Except Unit Info) (ticker : String) :
    Option (List (String × YVal)) :=
  match fetchInfo ticker with
  | .error _ => none
  | .ok info =>
    let fund : List (String × Option YVal) :=
      [("Company", info.longName.getD (some (.str ticker))),
       ("Sector", info.sector.getD none),
       ("Industry", info.industry.getD none),
       ("Market Cap", info.marketCap.getD none),
       ("Current Price", info.currentPrice.getD none),
       ("PE Ratio", info.trailingPE.getD none),
       ("PB Ratio", info.priceToBook.getD none),
       ("Dividend Yield", info.dividendYield.getD none),
       ("52W High", info.fiftyTwoWeekHigh.getD none),
       ("52W Low", info.fiftyTwoWeekLow.getD none)]
    some (fund.filterMap fun kv => kv.2.map fun v => (kv.1, v))

/-- One row of the downloaded price history: (date index, closing price). -/
def PriceRow : Type := Int × ℚ

/-- `get_stock_chart` (lines 105-120).  `download` stands for
`yf.download(ticker, period="3mo")` (an `Except.error` is a raised
exception), `render` for the matplotlib figure construction and PNG encoding
of the close-price series (which may itself raise); the produced value is the
in-memory PNG byte buffer.  The empty check happens inside the `try`. -/
def get_stock_chart (download : String → Except Unit (List PriceRow))
    (render : String → List PriceRow → Except Unit (List Nat))
    (ticker : String) : Option (List Nat) :=
  match download ticker with
  | .error _ => none
  | .ok df =>
    if df.isEmpty then none
    else
      match render ticker df with
      | .error _ => none
      | .ok buf => some buf

/-- The candidate loop of a headline's expansion panel (lines 148-162):
`for t in tickers: fund = get_fundamentals(t); if fund: ...; break` with a
`for ... else` fallback notice.  Returns the winning ticker with its snapshot
(`none` means the loop fell through and the notice is shown) paired with the
number of `get_fundamentals` calls made.  A returned dict is truthy exactly
when it is neither `None` nor empty. -/
def expander_loop (getFund : String → Option (List (String × YVal))) :
    List String → Option (String × List (String × YVal)) × Nat
  | [] => (none, 0)
  | t :: ts =>
    match getFund t with
    | none =>
      let r := expander_loop getFund ts
      (r.1, r.2 + 1)
    | some fund =>
      if fund.isEmpty then
        let r := expander_loop getFund ts
        (r.1, r.2 + 1)
      else
        (some (t, fund), 1)

/-- The expansion panel body for one headline (lines 147-162): detect the
ticker candidates from the title and search them in order. -/
def expand_panel (fetchInfo : String → Except Unit Info) (title : String) :
    Option (String × List (String × YVal)) × Nat :=
  expander_loop (get_fundamentals fetchInfo) (detect_ticker title)

/-- Python truthiness of the `fund` value tested by `if fund:` at line 151:
`None` and the empty dict are falsy, a non-empty dict is truthy. -/
def dict_truthy (fund : Option (List (String × YVal))) : Bool :=
  match fund with
  | none => false
  | some snap => !snap.isEmpty

/-! ### Helper lemmas -/

/-- The interleaved output built by `detect_ticker` from a token list. -/
def ticker_pairs : List String → List String
  | [] => []
  | t :: ts => t :: (t ++ ".NS") :: ticker_pairs ts

lemma foldl_ticker_pairs (ts : List String) (acc : List String) :
    ts.foldl (fun tickers t => tickers ++ [t, t ++ ".NS"]) acc =
      acc ++ ticker_pairs ts := by
  induction ts generalizing acc with
  | nil => simp [ticker_pairs]
  | cons t ts ih => simp [ticker_pairs, ih]

lemma detect_ticker_eq (title : String) :
    detect_ticker title = ticker_pairs (ticker_tokens title) := by
  simpa using foldl_ticker_pairs (ticker_tokens title) []

lemma ticker_pairs_length (ts : List String) :
    (ticker_pairs ts).length = 2 * ts.length := by
  induction ts with
  | nil => rfl
  | cons t ts ih => simp only [ticker_pairs, List.length_cons, ih]; omega

lemma ticker_pairs_getElem_even (ts : List String) (i : Nat) :
    (ticker_pairs ts)[2 * i]? = ts[i]? := by
  induction ts generalizing i with
  | nil => simp [ticker_pairs]
  | cons t ts ih =>
    cases i with
    | zero => simp [ticker_pairs]
    | succ j =>
      have h2 : 2 * (j + 1) = 2 * j + 1 + 1 := by omega
      simp [ticker_pairs, h2, ih]

lemma ticker_pairs_getElem_odd (ts : List String) (i : Nat) :
    (ticker_pairs ts)[2 * i + 1]? = ts[i]?.map (fun t => t ++ ".NS") := by
  induction ts generalizing i with
  | nil => simp [ticker_pairs]
  | cons t ts ih =>
    cases i with
    | zero => simp [ticker_pairs]
    | succ j =>
      have h2 : 2 * (j + 1) + 1 = 2 * j + 1 + 1 + 1 := by omega
      simp [ticker_pairs, h2, ih]

lemma fetch_loop_eq (strftime : Int → String) (cutoff : Int) (m : Nat)
    (es : List Entry) :
    ∀ acc : List Article, acc.length < max m 1 →
      fetch_loop strftime cutoff m es acc =
        acc ++ ((es.filter (keep_entry cutoff)).map
          (fun e => article_of strftime e e.published_parsed)).take
            (max m 1 - acc.length) := by
  induction es with
  | nil => intro acc _; simp [fetch_loop]
  | cons e es ih =>
    intro acc hacc
    rcases he : e.published_parsed with _ | t
    · simp only [fetch_loop, he, List.filter_cons,
        show keep_entry cutoff e = true by simp [keep_entry, he],
        if_pos, List.map_cons, he]
      split_ifs with hm
    <;> simp only [List.length_append, List.length_cons,
          List.length_nil, Nat.zero_add] at hm
      · have h1 : max m 1 - acc.length = 1 := by omega
        simp [h1]
      · have h2 : acc.length + 1 < max m 1 := by omega
        rw [ih (acc ++ [article_of strftime e none]) (by simpa using h2)]
        have h3 : max m 1 - acc.length =
            (max m 1 - (acc ++ [article_of strftime e none]).length) + 1 := by
          simp only [List.length_append, List.length_cons, List.length_nil,
            Nat.zero_add]
          omega
        rw [h3, List.take_succ_cons]
        simp
    · by_cases hold : t < cutoff
      · have hkeep : keep_entry cutoff e = false := by
          simp only [keep_entry, he, decide_eq_false_iff_not]
          omega
        simp only [fetch_loop, he, if_pos hold, List.filter_cons, hkeep]
        exact ih acc hacc
      · have hkeep : keep_entry cutoff e = true := by
          simp only [keep_entry, he, decide_eq_true_eq]
          omega
        simp only [fetch_loop, he, if_neg hold, List.filter_cons, hkeep,
          if_pos, List.map_cons]
        split_ifs with hm
    <;> simp only [List.length_append, List.length_cons,
          List.length_nil, Nat.zero_add] at hm
        · have h1 : max m 1 - acc.length = 1 := by omega
          simp [h1, he]
        · have h2 : acc.length + 1 < max m 1 := by omega
          rw [ih (acc ++ [article_of strftime e (some t)]) (by simpa using h2)]
          have h3 : max m 1 - acc.length =
              (max m 1 -
                (acc ++ [article_of strftime e (some t)]).length) + 1 := by
            simp only [List.length_append, List.length_cons, List.length_nil,
              Nat.zero_add]
            omega
          rw [h3, List.take_succ_cons]
          simp [he]

lemma expander_loop_cons_continue (getFund : String → Option (List (String × YVal)))
    (t : String) (ts : List String) (h : dict_truthy (getFund t) = false) :
    expander_loop getFund (t :: ts) =
      ((expander_loop getFund ts).1, (expander_loop getFund ts).2 + 1) := by
  rcases hg : getFund t with _ | f
  · simp [expander_loop, hg]
  · rcases f with _ | ⟨a, l⟩
    · simp [expander_loop, hg]
    · simp [dict_truthy, hg] at h

lemma expander_loop_cons_stop (getFund : String → Option (List (String × YVal)))
    (t : String) (ts : List String) (f : List (String × YVal))
    (hg : getFund t = some f) (hf : f ≠ []) :
    expander_loop getFund (t :: ts) = (some (t, f), 1) := by
  rcases f with _ | ⟨a, l⟩
  · exact absurd rfl hf
  · simp [expander_loop, hg]

lemma expander_loop_char (getFund : String → Option (List (String × YVal))) :
    ∀ ts : List String,
      (expander_loop getFund ts).2 ≤ ts.length ∧
      (expander_loop getFund ts).2 =
        (ts.takeWhile fun t => !dict_truthy (getFund t)).length +
          (if ts.any fun t => dict_truthy (getFund t) then 1 else 0) ∧
      ((expander_loop getFund ts).1.map Prod.fst =
        ts.find? fun t => dict_truthy (getFund t)) ∧
      (∀ t f, (expander_loop getFund ts).1 = some (t, f) →
        getFund t = some f ∧ f ≠ []) ∧
      ((expander_loop getFund ts).1 = none ↔
        ∀ t ∈ ts, dict_truthy (getFund t) = false)
  | [] => by simp [expander_loop]
  | t :: ts => by
    have ih := expander_loop_char getFund ts
    by_cases htr : dict_truthy (getFund t) = true
    · obtain ⟨f, hg, hf⟩ : ∃ f, getFund t = some f ∧ f ≠ [] := by
        rcases hg : getFund t with _ | f
        · simp [dict_truthy, hg] at htr
        · rcases f with _ | ⟨a, l⟩
          · simp [dict_truthy, hg] at htr
          · exact ⟨a :: l, rfl, by simp⟩
      rw [expander_loop_cons_stop getFund t ts f hg hf]
      refine ⟨by simp, ?_, ?_, ?_, ?_⟩
      · rw [List.takeWhile_cons_of_neg (by simp [htr]), List.any_cons]
        simp [htr]
      · have hfind : List.find? (fun t2 => dict_truthy (getFund t2)) (t :: ts) =
            some t := List.find?_cons_of_pos _ htr
        rw [hfind]
        rfl
      · intro t2 f2 heq
        simp only [Option.some.injEq, Prod.mk.injEq] at heq
        obtain ⟨h1, h2⟩ := heq
        subst h1
        subst h2
        exact ⟨hg, hf⟩
      · constructor
        · intro heq
          exact absurd heq (by simp)
        · intro hall
          exact absurd (hall t (List.mem_cons_self t ts)) (by simp [htr])
    · have htr2 : dict_truthy (getFund t) = false := by
        cases hd : dict_truthy (getFund t)
        · rfl
        · exact absurd hd htr
      rw [expander_loop_cons_continue getFund t ts htr2]
      refine ⟨?_, ?_, ?_, ih.2.2.2.1, ?_⟩
      · have h1 := ih.1
        simp only [List.length_cons]
        omega
      · rw [List.takeWhile_cons_of_pos (by simp [htr2]), List.any_cons]
        simp only [htr2, Bool.false_or, List.length_cons]
        rw [ih.2.1]
        omega
      · rw [List.find?_cons_of_neg _ (by simp [htr2])]
        exact ih.2.2.1
      · rw [ih.2.2.2.2]
        constructor
        · intro hall t2 ht2
          rcases List.mem_cons.mp ht2 with rfl | ht2
          · exact htr2
          · exact hall t2 ht2
        · intro hall t2 ht2
          exact hall t2 (List.mem_cons_of_mem t ht2)

/-- `fetch_google_news` is the recency filter, mapped to article records and
truncated at `max max_items 1` (the length check follows the append, so a
zero cap still lets one article through). -/
lemma fetch_google_news_eq (strftime : Int → String) (entries : List Entry)
    (now days : Int) (max_items : Nat) :
    fetch_google_news strftime entries now days max_items =
      ((entries.filter (keep_entry (now - days * 86400))).map
        (fun e => article_of strftime e e.published_parsed)).take
          (max max_items 1) := by
  have h := fetch_loop_eq strftime (now - days * 86400) max_items entries []
    (by simp)
  simpa [fetch_google_news] using h

end Options

namespace Options

/-! ### Claim theorems -/

/-- Claim C1: `analyze_sentiment` labels `Positive` exactly when the polarity
is strictly greater than `0.1`, `Negative` exactly when it is strictly less
than `-0.1`, and `Neutral` otherwise; boundary polarities `0.1` and `-0.1`
classify as `Neutral`. -/
theorem analyze_sentiment_thresholds (polarity_of : String → ℚ) (text : String) :
    ((analyze_sentiment polarity_of text).1 = "Positive" ↔
        1/10 < polarity_of text) ∧
    ((analyze_sentiment polarity_of text).1 = "Negative" ↔
        polarity_of text < -(1/10)) ∧
    ((analyze_sentiment polarity_of text).1 = "Neutral" ↔
        -(1/10) ≤ polarity_of text ∧ polarity_of text ≤ 1/10) := by
  have hPN : ("Positive" : String) ≠ "Negative" := by decide
  have hPU : ("Positive" : String) ≠ "Neutral" := by decide
  have hNU : ("Negative" : String) ≠ "Neutral" := by decide
  unfold analyze_sentiment
  dsimp only
  split_ifs with h1 h2
  · exact ⟨⟨fun _ => h1, fun _ => rfl⟩,
      ⟨fun h => absurd h hPN, fun h => absurd h1 (by linarith)⟩,
      ⟨fun h => absurd h hPU, fun h => absurd h1 (by linarith [h.2])⟩⟩
  · exact ⟨⟨fun h => absurd h.symm hPN, fun h => absurd h2 (by linarith)⟩,
      ⟨fun _ => h2, fun _ => rfl⟩,
      ⟨fun h => absurd h hNU, fun h => absurd h2 (by linarith [h.1])⟩⟩
  · exact ⟨⟨fun h => absurd h.symm hPU, fun h => absurd h1 (by linarith)⟩,
      ⟨fun h => absurd h.symm hNU, fun h => absurd h2 (by linarith)⟩,
      ⟨fun _ => ⟨by linarith, by linarith⟩, fun _ => rfl⟩⟩

/-- Claim C2: `detect_ticker` returns a list of length exactly twice the
number of matched tokens, and for the `i`-th matched token (0-based) element
`2*i` is the bare token and element `2*i+1` is the token followed by
`".NS"`. -/
theorem detect_ticker_pairs (title : String) :
    (detect_ticker title).length = 2 * (ticker_tokens title).length ∧
    ∀ i, i < (ticker_tokens title).length →
      (detect_ticker title)[2 * i]? = (ticker_tokens title)[i]? ∧
      (detect_ticker title)[2 * i + 1]? =
        ((ticker_tokens title)[i]?).map (fun t => t ++ ".NS") := by
  rw [detect_ticker_eq]
  exact ⟨ticker_pairs_length _,
    fun i _ => ⟨ticker_pairs_getElem_even _ i, ticker_pairs_getElem_odd _ i⟩⟩

/-- Claim C3 counterexample: with `max_items = 0` and a single fresh entry,
`fetch_google_news` returns one article, so the bound
`length ≤ max_items` fails at `max_items = 0` (the cap test runs only after
an article was appended). -/
theorem fetch_zero_cap_violated :
    (fetch_google_news (fun _ => "") [⟨some "t", some "l", none, none⟩]
        0 0 0).length = 1 ∧
    ¬ ((fetch_google_news (fun _ => "") [⟨some "t", some "l", none, none⟩]
        0 0 0).length ≤ 0) := by
  constructor <;> decide

/-- Claim C3 (amended): for every `max_items ≥ 1`, the article list returned
by `fetch_google_news` has length at most `max_items`, whatever the parsed
feed contains. -/
theorem fetch_length_le_max_items (strftime : Int → String)
    (entries : List Entry) (now days : Int) (max_items : Nat)
    (h : 1 ≤ max_items) :
    (fetch_google_news strftime entries now days max_items).length ≤
      max_items := by
  rw [fetch_google_news_eq]
  have hmax : max max_items 1 = max_items := by omega
  exact (List.length_take_le (max max_items 1)
      ((entries.filter (keep_entry (now - days * 86400))).map
        (fun e => article_of strftime e e.published_parsed))).trans
      (le_of_eq hmax)

/-- Witness for the amended C3 at a concrete feed of three entries and cap
`2`. -/
theorem fetch_length_le_max_items_witness :
    1 ≤ 2 ∧
    (fetch_google_news (fun _ => "")
        [⟨some "a", some "x", none, none⟩, ⟨some "b", some "y", none, none⟩,
         ⟨some "c", some "z", none, none⟩] 0 0 2).length ≤ 2 :=
  ⟨by decide,
    fetch_length_le_max_items (fun _ => "")
      [⟨some "a", some "x", none, none⟩, ⟨some "b", some "y", none, none⟩,
       ⟨some "c", some "z", none, none⟩] 0 0 2 (by decide)⟩

/-- Claim C4: `fetch_google_news` is exactly the per-entry recency filter
followed by truncation: an entry with a parseable publish time strictly
before the cutoff `now - days` is excluded, and an entry with no parseable
publish time passes the filter regardless of age, subject only to the cap. -/
theorem fetch_recency_filter (strftime : Int → String) (entries : List Entry)
    (now days : Int) (max_items : Nat) :
    fetch_google_news strftime entries now days max_items =
      ((entries.filter (keep_entry (now - days * 86400))).map
        (fun e => article_of strftime e e.published_parsed)).take
          (max max_items 1) ∧
    (∀ e : Entry, ∀ t : Int, e.published_parsed = some t →
        t < now - days * 86400 → keep_entry (now - days * 86400) e = false) ∧
    (∀ e : Entry, e.published_parsed = none →
        keep_entry (now - days * 86400) e = true) := by
  refine ⟨fetch_google_news_eq strftime entries now days max_items, ?_, ?_⟩
  · intro e t ht hlt
    simp only [keep_entry, ht, decide_eq_false_iff_not]
    omega
  · intro e ht
    simp [keep_entry, ht]

/-- Witness for C4: a stale timestamped entry fails the keep test and an
undated entry passes it, at cutoff `0`. -/
theorem fetch_recency_filter_witness :
    keep_entry 0 ⟨some "t", some "l", none, some (-5)⟩ = false ∧
    keep_entry 0 ⟨some "t", some "l", none, none⟩ = true :=
  ⟨(fetch_recency_filter (fun _ => "") [] 0 0 1).2.1
      ⟨some "t", some "l", none, some (-5)⟩ (-5) rfl (by decide),
    (fetch_recency_filter (fun _ => "") [] 0 0 1).2.2
      ⟨some "t", some "l", none, none⟩ rfl⟩

/-- Claim C9 counterexample: a feed entry with no title and no link still
yields an article, whose `title` and `link` are null — `fetch_google_news`
copies `e.get("title")` / `e.get("link")` without a presence check. -/
theorem fetch_article_null_title :
    (fetch_google_news (fun _ => "") [⟨none, none, none, none⟩]
        0 0 5).map Article.title = [none] ∧
    (fetch_google_news (fun _ => "") [⟨none, none, none, none⟩]
        0 0 5).map Article.link = [none] := by
  constructor <;> rfl

/-- Claim C9 (amended): every article copies its `title` and `link` from its
feed entry, so whenever every feed entry carries a non-null title and link,
every produced article does too. -/
theorem fetch_article_title_link (strftime : Int → String)
    (entries : List Entry) (now days : Int) (max_items : Nat)
    (h : ∀ e ∈ entries, e.title ≠ none ∧ e.link ≠ none) :
    ∀ a ∈ fetch_google_news strftime entries now days max_items,
      a.title ≠ none ∧ a.link ≠ none := by
  intro a ha
  rw [fetch_google_news_eq] at ha
  have ha2 := List.take_subset _ _ ha
  obtain ⟨e, hef, rfl⟩ := List.mem_map.mp ha2
  exact h e (List.mem_of_mem_filter hef)

/-- Witness for the amended C9 at a one-entry feed with title and link,
projected at the produced article. -/
theorem fetch_article_title_link_witness :
    (Article.mk (some "Headline") (some "http") "" "").title ≠ none ∧
    (Article.mk (some "Headline") (some "http") "" "").link ≠ none :=
  fetch_article_title_link (fun _ => "")
    [⟨some "Headline", some "http", none, none⟩] 0 0 5 (by decide)
    ⟨some "Headline", some "http", "", ""⟩ (by decide)

/-- Claim C5 counterexample: when the provider omits `longName`, the snapshot
still contains the key `Company` (with the queried ticker as fallback value),
so it does contain a key whose underlying provider value was null. -/
theorem fundamentals_company_without_provider_value :
    providerValue
        (⟨none, some (some (.str "Technology")), none, none, none,
          none, none, none, none, none⟩ : Info) "Company" = none ∧
    get_fundamentals
        (fun _ => .ok (⟨none, some (some (.str "Technology")), none, none,
          none, none, none, none, none, none⟩ : Info)) "XYZ" =
      some [("Company", .str "XYZ"), ("Sector", .str "Technology")] :=
  ⟨rfl, rfl⟩

/-- Claim C5 (amended): every key of a returned snapshot lies in the fixed
10-name set, and every key other than `Company` carries exactly its non-null
provider value (`Company` alone may appear with the queried ticker as a
fallback when the provider's `longName` is null). -/
theorem get_fundamentals_keys (fetchInfo : String → Except Unit Info)
    (ticker : String) (info : Info) (snap : List (String × YVal))
    (hinfo : fetchInfo ticker = .ok info)
    (hsnap : get_fundamentals fetchInfo ticker = some snap) :
    ∀ kv ∈ snap, kv.1 ∈ fundKeys ∧
      (kv.1 ≠ "Company" → providerValue info kv.1 = some kv.2) := by
  simp only [get_fundamentals, hinfo, Option.some.injEq] at hsnap
  subst hsnap
  intro kv hkv
  simp only [List.mem_filterMap] at hkv
  obtain ⟨x, hx, hfx⟩ := hkv
  simp only [List.mem_cons, List.not_mem_nil, or_false] at hx
  rcases hx with rfl | rfl | rfl | rfl | rfl | rfl | rfl | rfl | rfl | rfl <;>
    obtain ⟨v, hv, rfl⟩ := Option.map_eq_some'.mp hfx <;>
    dsimp only <;>
    refine ⟨by decide, fun hne => ?_⟩
  · exact absurd rfl hne
  all_goals simpa [providerValue] using hv

/-- Witness for the amended C5 at a fully populated provider record,
projected at the `Sector` entry of the snapshot. -/
theorem get_fundamentals_keys_witness :
    ("Sector", YVal.str "Energy").1 ∈ fundKeys ∧
    (("Sector", YVal.str "Energy").1 ≠ "Company" →
      providerValue
          (⟨some (some (.str "R Ltd")), some (some (.str "Energy")),
            some (some (.str "Oil")), some (some (.num 100)),
            some (some (.num 10)), some (some (.num 20)),
            some (some (.num 2)), some (some (.num 1)),
            some (some (.num 12)), some (some (.num 8))⟩ : Info)
          ("Sector", YVal.str "Energy").1 =
        some ("Sector", YVal.str "Energy").2) :=
  get_fundamentals_keys
    (fun _ => .ok (⟨some (some (.str "R Ltd")), some (some (.str "Energy")),
      some (some (.str "Oil")), some (some (.num 100)),
      some (some (.num 10)), some (some (.num 20)), some (some (.num 2)),
      some (some (.num 1)), some (some (.num 12)),
      some (some (.num 8))⟩ : Info))
    "REL"
    (⟨some (some (.str "R Ltd")), some (some (.str "Energy")),
      some (some (.str "Oil")), some (some (.num 100)),
      some (some (.num 10)), some (some (.num 20)), some (some (.num 2)),
      some (some (.num 1)), some (some (.num 12)),
      some (some (.num 8))⟩ : Info)
    [("Company", .str "R Ltd"), ("Sector", .str "Energy"),
     ("Industry", .str "Oil"), ("Market Cap", .num 100),
     ("Current Price", .num 10), ("PE Ratio", .num 20), ("PB Ratio", .num 2),
     ("Dividend Yield", .num 1), ("52W High", .num 12), ("52W Low", .num 8)]
    rfl rfl ("Sector", .str "Energy") (by decide)

/-- Claim C6: `get_fundamentals` never propagates an exception: whenever the
provider call raises, it returns `None`. -/
theorem get_fundamentals_no_raise (fetchInfo : String → Except Unit Info)
    (ticker : String) (h : fetchInfo ticker = .error ()) :
    get_fundamentals fetchInfo ticker = none := by
  simp [get_fundamentals, h]

/-- Witness for C6 with a provider that always raises. -/
theorem get_fundamentals_no_raise_witness :
    get_fundamentals (fun _ => .error ()) "TCS" = none :=
  get_fundamentals_no_raise (fun _ => .error ()) "TCS" rfl

/-- Claim C10 counterexample: a provider dict carrying `longName` present but
null makes `info.get("longName", ticker)` return `None` (the default fires
only on a missing key), so the comprehension omits `Company` — the snapshot
does not always contain the key. -/
theorem fundamentals_company_omitted :
    get_fundamentals
        (fun _ => .ok (⟨some none, some (some (.str "Technology")), none,
          none, none, none, none, none, none, none⟩ : Info)) "XYZ" =
      some [("Sector", .str "Technology")] ∧
    "Company" ∉ ([("Sector", YVal.str "Technology")].map Prod.fst) :=
  ⟨rfl, by decide⟩

/-- Claim C10 (amended): in a returned snapshot, `Company` is present with
the queried ticker as value when the provider's `longName` key is absent,
and present with the stored value when `longName` holds a non-null value;
only a `longName` key present holding null makes `Company` be omitted. -/
theorem get_fundamentals_company_default
    (fetchInfo : String → Except Unit Info) (ticker : String) (info : Info)
    (snap : List (String × YVal)) (hinfo : fetchInfo ticker = .ok info)
    (hsnap : get_fundamentals fetchInfo ticker = some snap) :
    (info.longName = none → ("Company", YVal.str ticker) ∈ snap) ∧
    (∀ v, info.longName = some (some v) → ("Company", v) ∈ snap) ∧
    (info.longName = some none →
      "Company" ∉ snap.map Prod.fst) := by
  simp only [get_fundamentals, hinfo, Option.some.injEq] at hsnap
  subst hsnap
  refine ⟨fun hln => ?_, fun v hln => ?_, fun hln => ?_⟩
  · exact List.mem_filterMap.mpr
      ⟨("Company", info.longName.getD (some (.str ticker))),
        List.mem_cons_self _ _, by simp [hln]⟩
  · exact List.mem_filterMap.mpr
      ⟨("Company", info.longName.getD (some (.str ticker))),
        List.mem_cons_self _ _, by simp [hln]⟩
  · intro hmem
    obtain ⟨kv, hkv, hfst⟩ := List.mem_map.mp hmem
    obtain ⟨x, hx, hfx⟩ := List.mem_filterMap.mp hkv
    simp only [List.mem_cons, List.not_mem_nil, or_false] at hx
    rcases hx with rfl | rfl | rfl | rfl | rfl | rfl | rfl | rfl | rfl | rfl
    · rw [hln] at hfx
      simp at hfx
    all_goals
      obtain ⟨w, hw, heq⟩ := Option.map_eq_some'.mp hfx
      rw [← heq] at hfst
      exact absurd hfst (by dsimp only; decide)

/-- Witness for the amended C10: with `longName` absent from the provider
dict, the snapshot carries `Company` with the queried ticker as value. -/
theorem get_fundamentals_company_default_witness :
    ("Company", YVal.str "INFY") ∈
      [(("Company" : String), YVal.str "INFY"),
       ("Sector", YVal.str "Technology")] :=
  (get_fundamentals_company_default
    (fun _ => .ok (⟨none, some (some (.str "Technology")), none, none, none,
      none, none, none, none, none⟩ : Info)) "INFY"
    (⟨none, some (some (.str "Technology")), none, none, none,
      none, none, none, none, none⟩ : Info)
    [("Company", .str "INFY"), ("Sector", .str "Technology")] rfl rfl).1 rfl

/-- Claim C7: `get_stock_chart` returns `None` whenever the downloaded price
series is empty, and whenever the download or the render raises; otherwise it
returns the encoded PNG bytes produced by the render. -/
theorem get_stock_chart_cases (download : String → Except Unit (List PriceRow))
    (render : String → List PriceRow → Except Unit (List Nat))
    (ticker : String) :
    (download ticker = .error () →
      get_stock_chart download render ticker = none) ∧
    (∀ df, download ticker = .ok df → df = [] →
      get_stock_chart download render ticker = none) ∧
    (∀ df, download ticker = .ok df → df ≠ [] →
      render ticker df = .error () →
      get_stock_chart download render ticker = none) ∧
    (∀ df buf, download ticker = .ok df → df ≠ [] →
      render ticker df = .ok buf →
      get_stock_chart download render ticker = some buf) := by
  refine ⟨fun h => ?_, fun df hdf hnil => ?_, fun df hdf hne hr => ?_,
    fun df buf hdf hne hr => ?_⟩
  · simp [get_stock_chart, h]
  · subst hnil
    simp [get_stock_chart, hdf, List.isEmpty]
  · have hemp : df.isEmpty = false := by
      cases df with
      | nil => exact absurd rfl hne
      | cons a l => rfl
    simp [get_stock_chart, hdf, hemp, hr]
  · have hemp : df.isEmpty = false := by
      cases df with
      | nil => exact absurd rfl hne
      | cons a l => rfl
    simp [get_stock_chart, hdf, hemp, hr]

/-- Witness for C7: an empty downloaded series yields `None` even when the
render would succeed. -/
theorem get_stock_chart_cases_witness :
    get_stock_chart (fun _ => .ok []) (fun _ _ => .ok [1, 2]) "TCS" = none :=
  (get_stock_chart_cases (fun _ => .ok []) (fun _ _ => .ok [1, 2])
    "TCS").2.1 [] rfl rfl

/-- Claim C8 counterexample: a first candidate whose fundamentals resolve to
an empty (falsy) dict — provider dict `\x7b"longName": None\x7d` — does not
stop the loop: all four candidates of "AB CD" are tried and the notice fires
even though a snapshot was returned. -/
theorem expand_panel_continues_past_resolved :
    get_fundamentals
        (fun t => if t = "AB" then
          .ok (⟨some none, none, none, none, none,
            none, none, none, none, none⟩ : Info)
          else .error ()) "AB" = some [] ∧
    expand_panel
        (fun t => if t = "AB" then
          .ok (⟨some none, none, none, none, none,
            none, none, none, none, none⟩ : Info)
          else .error ()) "AB CD" = (none, 4) :=
  ⟨rfl, rfl⟩

/-- Claim C8 (amended): the expansion panel tries the detected candidates in
order with at most one fundamentals call per candidate, stops at the first
candidate whose fundamentals resolve to a truthy (non-`None`, non-empty)
snapshot, shows the notice exactly when no candidate yields a truthy
snapshot, and makes no fundamentals call at all when the candidate list is
empty. -/
theorem expand_panel_first_success (fetchInfo : String → Except Unit Info)
    (title : String) :
    (expand_panel fetchInfo title).2 ≤ (detect_ticker title).length ∧
    (expand_panel fetchInfo title).2 =
      ((detect_ticker title).takeWhile
        (fun t => !dict_truthy (get_fundamentals fetchInfo t))).length +
        (if (detect_ticker title).any
            (fun t => dict_truthy (get_fundamentals fetchInfo t))
          then 1 else 0) ∧
    ((expand_panel fetchInfo title).1.map Prod.fst =
      (detect_ticker title).find?
        (fun t => dict_truthy (get_fundamentals fetchInfo t))) ∧
    (∀ t f, (expand_panel fetchInfo title).1 = some (t, f) →
      get_fundamentals fetchInfo t = some f ∧ f ≠ []) ∧
    ((expand_panel fetchInfo title).1 = none ↔
      ∀ t ∈ detect_ticker title,
        dict_truthy (get_fundamentals fetchInfo t) = false) ∧
    (detect_ticker title = [] → expand_panel fetchInfo title = (none, 0)) := by
  have h := expander_loop_char (get_fundamentals fetchInfo)
    (detect_ticker title)
  exact ⟨h.1, h.2.1, h.2.2.1, h.2.2.2.1, h.2.2.2.2,
    fun hnil => by simp [expand_panel, hnil, expander_loop]⟩

/-- Witness for C8 (scenario C): a headline with no 2-6-letter all-caps token
yields an empty candidate list, the notice, and zero fundamentals calls. -/
theorem expand_panel_first_success_witness :
    expand_panel (fun _ => .error ()) "markets rally on budget hopes" =
      (none, 0) :=
  (expand_panel_first_success (fun _ => .error ())
    "markets rally on budget hopes").2.2.2.2.2 rfl

/-- Witness for C2 at a concrete headline with two matched tokens. -/
theorem detect_ticker_pairs_witness :
    (detect_ticker "NIFTY rallies, IPO boom").length =
        2 * (ticker_tokens "NIFTY rallies, IPO boom").length ∧
    (detect_ticker "NIFTY rallies, IPO boom")[2 * 1]? =
        (ticker_tokens "NIFTY rallies, IPO boom")[1]? ∧
    (detect_ticker "NIFTY rallies, IPO boom")[2 * 1 + 1]? =
        ((ticker_tokens "NIFTY rallies, IPO boom")[1]?).map
          (fun t => t ++ ".NS") :=
  ⟨(detect_ticker_pairs "NIFTY rallies, IPO boom").1,
    (detect_ticker_pairs "NIFTY rallies, IPO boom").2 1 (by decide)⟩

end Options
